import Mathlib

/-!
Verification development for the `shawty` screenshot service.

The definitions below are a shallow embedding of the page-preparation and
capture pipeline (`screenshot.ts`, latest revision) and of the HTTP handlers
(`server.ts`).  Machine effects are made explicit:

* the live page is an environment of sample streams (`ScrollRead` metrics,
  `LazyLoadMetrics` samples), one stream element consumed per `page.evaluate`
  read;
* real time is a millisecond counter advanced by the explicit `setTimeout`
  delays in the source (100, 200 and 500 ms) and by the loop budgets; metric
  reads themselves are modelled as instantaneous, which can only shorten the
  modelled running time relative to the real one;
* fallible browser calls are modelled with explicit fault flags, and loops
  are written with a fuel argument that is provably never exhausted for the
  fuel supplied by the wrappers (each iteration advances the clock by at
  least 100 ms, so `budget` iterations are more than enough).
-/

/-! ## ASCII lowering and substring / wildcard matching

`blockChatWidgets` lowercases the request URL (`request.url().toLowerCase()`)
and matches it against `blockPatterns`, each pattern translated to a regular
expression by escaping `.` and turning `*` into `.*`, then tested unanchored.
For this pattern language (literal characters and `*` only) the unanchored
regex test is: the `*`-separated segments occur in the string, in order.
`segsMatch` decides exactly that, taking the leftmost occurrence of each
segment, which is a complete decision procedure for this pattern class. -/

def asciiLower (c : Char) : Char :=
  if 65 ≤ c.toNat ∧ c.toNat ≤ 90 then Char.ofNat (c.toNat + 32) else c

def lowerChars (s : String) : List Char :=
  s.toList.map asciiLower

/-- Remainder of `hay` after the first occurrence of `needle`, if any. -/
def subAfter (needle : List Char) : List Char → Option (List Char)
  | [] => if needle.isEmpty then some [] else none
  | c :: rest =>
    if needle.isPrefixOf (c :: rest) then some ((c :: rest).drop needle.length)
    else subAfter needle rest

def containsSub (needle hay : String) : Bool :=
  (subAfter needle.toList hay.toList).isSome

/-- Split a pattern at the `*` wildcard characters. -/
def splitOnStar : List Char → List (List Char)
  | [] => [[]]
  | c :: rest =>
    match splitOnStar rest with
    | [] => [[c]]
    | s :: ss => if c = '*' then [] :: s :: ss else (c :: s) :: ss

/-- Unanchored match of the `*`-separated segments, in order. -/
def segsMatch : List (List Char) → List Char → Bool
  | [], _ => true
  | s :: rest, hay =>
    match subAfter s hay with
    | some rem => segsMatch rest rem
    | none => false

/-! ## Network-level chat-widget blocking (`PageManager.blockChatWidgets`) -/

/-- The `blockPatterns` array of `blockChatWidgets` (latest revision). -/
def blockPatterns : List String :=
  [ "crisp.chat"
  , "intercom.io"
  , "messenger.com"
  , "facebook.com/*/customer_chat"
  , "drift.com"
  , "tawk.to"
  , "user.com"
  , "zoho.com/salesiq"
  , "hubspot.com/messaging"
  , "livechatinc.com"
  , "zopim.com"
  , "freshchat.com"
  , "olark.com"
  , "zendesk.com/embeddable"
  , "gorgias.chat"
  , "smooch.io"
  , "purechat.com"
  , "js.hsforms.net"
  , "js.usemessages.com"
  , "js.hs-scripts.com"
  , "js.hscollectedforms.net"
  , "js.hsadspixel.net"
  , "js.hs-analytics.net"
  , "js.hs-banner.com"
  , "*.hubspot.com/conversations-visitor"
  , "meetings.hubspot.com"
  , "api.hubspot.com/conversations"
  , "*.hubspot.net" ]

/-- `blockPatterns.some(pattern => new RegExp(escape(pattern)).test(url))`
applied to the lowercased URL. -/
def matchesBlockPattern (url : String) : Bool :=
  blockPatterns.any fun p => segsMatch (splitOnStar p.toList) (lowerChars url)

inductive ReqDecision
  | aborted
  | continued
deriving DecidableEq, Repr

/-- State of one intercepted request: whether it has already been finalized
(continued or aborted by some handler) and the list of decisions successfully
applied to it by the modelled handler. -/
structure ReqState where
  handled : Bool
  decisions : List ReqDecision
deriving DecidableEq, Repr

/-- One `request.continue()` / `request.abort()` call.  The call throws
(`none`) when the request was already handled, or when the call itself fails
spuriously (the `fault` flag); a throwing call leaves the request untouched. -/
def attemptDecision (d : ReqDecision) (fault : Bool) (st : ReqState) : Option ReqState :=
  if st.handled || fault then none
  else some ⟨true, st.decisions ++ [d]⟩

/-- Which of the interception calls fail in a given run of the handler. -/
structure InterceptScenario where
  alreadyHandled : Bool
  primaryFault : Bool
  fallbackFault : Bool
deriving DecidableEq, Repr

/-- The `page.on("request", ...)` handler of `blockChatWidgets`:
classify the lowercased URL, abort on a match and continue otherwise; on any
thrown error, swallow it and attempt one best-effort `request.continue()`,
ignoring a second error. -/
def interceptHandler (url : String) (sc : InterceptScenario) : ReqState :=
  let st0 : ReqState := ⟨sc.alreadyHandled, []⟩
  let d := if matchesBlockPattern url then ReqDecision.aborted else ReqDecision.continued
  match attemptDecision d sc.primaryFault st0 with
  | some st => st
  | none =>
    match attemptDecision ReqDecision.continued sc.fallbackFault st0 with
    | some st => st
    | none => st0

/-! ## Request options (`ScreenshotOptions` of `types.ts`) -/

inductive ImageFormat
  | jpeg
  | png
deriving DecidableEq, Repr

inductive WaitCondition
  | load
  | domcontentloaded
  | networkidle0
  | networkidle2
deriving DecidableEq, Repr

structure ScreenshotOptions where
  url : String
  width : Option Nat := none
  height : Option Nat := none
  fullPage : Option Bool := none
  quality : Option Nat := none
  format : Option ImageFormat := none
  waitUntil : Option WaitCondition := none
  timeout : Option Nat := none
  outputPath : Option String := none
deriving DecidableEq, Repr

/-- The argument object of the `page.screenshot({...})` call in
`PageManager.captureScreenshot`. -/
structure EncodingParams where
  fullPage : Bool
  type : ImageFormat
  quality : Option Nat
deriving DecidableEq, Repr

/-- `{ fullPage: options.fullPage ?? true, type: options.format ?? "jpeg",
quality: options.format === "jpeg" ? (options.quality ?? 80) : undefined }`. -/
def captureScreenshotParams (o : ScreenshotOptions) : EncodingParams :=
  { fullPage := o.fullPage.getD true
  , type := o.format.getD ImageFormat.jpeg
  , quality := if o.format = some ImageFormat.jpeg then some (o.quality.getD 80) else none }

/-- JavaScript truthiness of `options.outputPath` in
`if (options.outputPath) { await writeFile(...) }`. -/
def writesFile (o : ScreenshotOptions) : Bool :=
  match o.outputPath with
  | some p => p ≠ ""
  | none => false

/-! ## Sticky-element neutralization and restoration

The page DOM is modelled as a list of elements with distinct identities, each
carrying its tag name, ARIA role, inline style attribute text (`cssText`) and
the position value that `getComputedStyle` resolves for it (a snapshot: the
claims under verification do not depend on computed-style recomputation).
What `style.setProperty("position", "static", "important")` and the extra
header/nav property writes do to a `cssText` string is browser-defined CSSOM
serialization, so it is kept as a parameter (`mutP`, `mutNav`): none of the
verified properties depend on its shape, only on the fact that the original
string is recorded first and written back verbatim. -/

structure Elem where
  id : Nat
  tag : String
  role : Option String
  inlineStyle : String
  computedPos : String
deriving DecidableEq, Repr

/-- The page: elements plus the `window.__originalStickyStyles` slot,
`none` when the property was never assigned. -/
structure PageDom where
  elems : List Elem
  slot : Option (List (Nat × String))
deriving DecidableEq, Repr

/-- The four `[style*=...]` attribute selectors of `stickySelectors`. -/
def inlineMentionsSticky (s : String) : Bool :=
  containsSub "position: fixed" s || containsSub "position:fixed" s ||
    containsSub "position: sticky" s || containsSub "position:sticky" s

/-- Membership test for the computed-style filter of the sticky-element set. -/
def stickyComputed (e : Elem) : Bool :=
  e.computedPos == "fixed" || e.computedPos == "sticky"

/-- Membership in the `stickyElements` set: selector-matched or
computed-style matched. -/
def selectedSticky (e : Elem) : Bool :=
  inlineMentionsSticky e.inlineStyle || stickyComputed e

/-- An element is recorded and modified when it is in the set and the in-loop
computed-style check passes again. -/
def stickyQualifies (e : Elem) : Bool :=
  selectedSticky e && stickyComputed e

def lowerStr (s : String) : String :=
  String.mk (s.data.map asciiLower)

/-- `tagName.toLowerCase() === "header" || ... === "nav" ||
getAttribute("role") === "navigation"`. -/
def isNavLandmark (e : Elem) : Bool :=
  lowerStr e.tag == "header" || lowerStr e.tag == "nav" || e.role == some "navigation"

/-- The style mutation applied to one qualifying element: force static
positioning, and for header/nav landmarks additionally zero the top offset
and reset the z-index. -/
def modifyStickyOne (mutP mutNav : String → String) (e : Elem) : Elem :=
  let s1 := mutP e.inlineStyle
  let s2 := if isNavLandmark e then mutNav s1 else s1
  { e with inlineStyle := s2 }

/-- The `originalStyles` record list built by `modifyStickyElements`:
one `(element, style.cssText)` pair per qualifying element, captured before
the mutation. -/
def stickyRecs (d : PageDom) : List (Nat × String) :=
  (d.elems.filter stickyQualifies).map fun e => (e.id, e.inlineStyle)

/-- `PageManager.handleStickyElements`: record `(element, style.cssText)` for
every qualifying element, mutate its inline style, and store the record list
in the `window.__originalStickyStyles` slot. -/
def handleStickyElements (mutP mutNav : String → String) (d : PageDom) : PageDom :=
  { elems := d.elems.map fun e =>
      if stickyQualifies e then modifyStickyOne mutP mutNav e else e
  , slot := some (stickyRecs d) }

/-- Apply the recorded `(element, style)` writes, in record order, to one
element: each record whose element identity matches overwrites the inline
style with the recorded string. -/
def applyRecs (recs : List (Nat × String)) (e : Elem) : Elem :=
  recs.foldl (fun a r => if a.id = r.1 then { a with inlineStyle := r.2 } else a) e

/-- `PageManager.restoreStickyElements`: if the slot is assigned, write each
recorded original style string back to its element.  The slot itself is left
as it was (the source does not clear it). -/
def restoreStickyElements (d : PageDom) : PageDom :=
  match d.slot with
  | none => d
  | some recs => { d with elems := d.elems.map (applyRecs recs) }

/-! ## Lazy-load stability monitor (`PageManager.waitForLazyLoad`) -/

/-- The `LazyLoadMetrics` sample of `getLazyLoadMetrics`. -/
structure LazyLoadMetrics where
  imageCount : Nat
  iframeCount : Nat
  pendingNetworkRequests : Nat
deriving DecidableEq, Repr

/-- Outcome of one `waitForLazyLoad` call: elapsed milliseconds, the index of
the next unconsumed sample, and whether it returned through the stability
path (`true`) or by exhausting its time budget (`false`). -/
structure WaitResult where
  elapsed : Nat
  sampleIdx : Nat
  stable : Bool
deriving DecidableEq, Repr

/-- The stability condition compared between two samples `p` (earlier) and
`c` (later): image count unchanged, iframe count unchanged, and no in-flight
network requests in the later sample. -/
def StablePair (p c : LazyLoadMetrics) : Prop :=
  c.imageCount = p.imageCount ∧ c.iframeCount = p.iframeCount ∧
    c.pendingNetworkRequests = 0

instance (p c : LazyLoadMetrics) : Decidable (StablePair p c) := by
  unfold StablePair; infer_instance

/-- The polling loop of `waitForLazyLoad`.  `env` is the stream of samples
(one consumed per `getLazyLoadMetrics` call), `t` the timeout, `e` the
elapsed time since the call started, `i` the next sample index and `prev` the
`previousMetrics` variable.  Every iteration advances the clock by at least
100 ms (the `setTimeout` waits of the source), so the fuel supplied by
`waitForLazyLoadFrom` is never exhausted; the fuel-0 branch mirrors the
timeout return. -/
def waitLoop (env : Nat → LazyLoadMetrics) (t : Nat) :
    Nat → Nat → Nat → Option LazyLoadMetrics → WaitResult
  | 0, e, i, _ => ⟨e, i, false⟩
  | fuel + 1, e, i, prev =>
    if e < t then
      match prev with
      | none => waitLoop env t fuel (e + 100) (i + 1) (some (env i))
      | some p =>
        if StablePair p (env i) then
          if StablePair (env i) (env (i + 1)) then
            ⟨e + 200, i + 2, true⟩
          else
            waitLoop env t fuel (e + 300) (i + 2) (some (env i))
        else
          waitLoop env t fuel (e + 100) (i + 1) (some (env i))
    else ⟨e, i, false⟩

/-- `waitForLazyLoad(page, timeout)` started with the sample stream at
index `i`. -/
def waitForLazyLoadFrom (env : Nat → LazyLoadMetrics) (t : Nat) (i : Nat) : WaitResult :=
  waitLoop env t t 0 i none

/-! ## Intelligent scroller (`PageManager.intelligentScroll`) -/

/-- One `getScrollMetrics` read: the quantities supplied by the page
(`window.innerHeight` and the document height maximum).  The scroll offset
component of the source's `ScrollMetrics` is the position driven by the
scroller itself and is tracked as loop state. -/
structure ScrollRead where
  viewportHeight : Nat
  documentHeight : Nat
deriving DecidableEq, Repr

/-- The live page as seen by the scroller: a stream of scroll-metric reads
and a stream of lazy-load samples. -/
structure PageEnv where
  sRead : Nat → ScrollRead
  lRead : Nat → LazyLoadMetrics

inductive ScrollExit
  | bottom
  | heightStable
  | timedOut
deriving DecidableEq, Repr

structure ScrollRet where
  elapsed : Nat
  sIdx : Nat
  lIdx : Nat
  pos : Nat
  exitReason : ScrollExit
deriving DecidableEq, Repr

/-- The main loop of `intelligentScroll`: while elapsed time is below
`maxT`, read metrics; exit at the bottom condition; exit when the document
height was unchanged for `STABILITY_THRESHOLD = 3` consecutive checks;
otherwise scroll by `step`, run `waitForLazyLoad` with budget `stabT` and
pause 100 ms.  Each iteration advances the clock by at least 100 ms, so the
fuel supplied by `intelligentScroll` is never exhausted; the fuel-0 branch
mirrors the timeout exit. -/
def scrollLoop (env : PageEnv) (maxT step stabT : Nat) :
    Nat → Nat → Nat → Nat → Nat → Nat → Nat → ScrollRet
  | 0, e, si, li, pos, _, _ => ⟨e, si, li, pos, ScrollExit.timedOut⟩
  | fuel + 1, e, si, li, pos, lastH, ctr =>
    if e < maxT then
      let m := env.sRead si
      if m.documentHeight ≤ pos + m.viewportHeight then
        ⟨e, si + 1, li, pos, ScrollExit.bottom⟩
      else if m.documentHeight = lastH then
        if 3 ≤ ctr + 1 then
          ⟨e, si + 1, li, pos, ScrollExit.heightStable⟩
        else
          let w := waitForLazyLoadFrom env.lRead stabT li
          scrollLoop env maxT step stabT fuel (e + w.elapsed + 100) (si + 1) w.sampleIdx
            (pos + step) lastH (ctr + 1)
      else
        let w := waitForLazyLoadFrom env.lRead stabT li
        scrollLoop env maxT step stabT fuel (e + w.elapsed + 100) (si + 1) w.sampleIdx
          (pos + step) m.documentHeight 0
    else ⟨e, si, li, pos, ScrollExit.timedOut⟩

/-- Result of `intelligentScroll`: final scroll offset, total elapsed time
and the loop's exit reason. -/
structure ScrollOutcome where
  finalPos : Nat
  elapsed : Nat
  exitReason : ScrollExit
deriving DecidableEq, Repr

/-- `intelligentScroll(page, {maxTimeout, scrollStep, stabilityTimeout})`:
run the loop from scroll position `pos0` with `lastDocumentHeight = 0` and
`stabilityCounter = 0`, then scroll back to the top (`window.scrollTo(0, 0)`)
and wait the fixed 500 ms settle delay. -/
def intelligentScroll (env : PageEnv) (maxT step stabT pos0 : Nat) : ScrollOutcome :=
  let r := scrollLoop env maxT step stabT maxT 0 0 0 pos0 0 0
  let posAfterTop := 0
  let elapsedAfterSettle := r.elapsed + 500
  ⟨posAfterTop, elapsedAfterSettle, r.exitReason⟩

/-! ## Capture pipeline (`ScreenshotService.takeScreenshot` with
`PageManager.setupPage` / `navigateAndPrepare` / `captureScreenshot`)

The pipeline is strictly sequential.  A fault flag per fallible step models
that step throwing.  The source has no `finally`: a throw anywhere between
page creation and the `page.close()` call inside `captureScreenshot`
propagates through the `catch` of `takeScreenshot` (which logs and rethrows)
without the page ever being closed. -/

structure PipelineFaults where
  blockingFails : Bool
  interceptSetupFails : Bool
  gotoFails : Bool
  stickyFails : Bool
  scrollFails : Bool
  screenshotFails : Bool
  restoreFails : Bool
  writeFails : Bool
deriving DecidableEq, Repr

structure PipelineResult where
  pageCreated : Bool
  pageClosed : Bool
  wroteFile : Bool
  ok : Bool
deriving DecidableEq, Repr

def noFaults : PipelineFaults :=
  ⟨false, false, false, false, false, false, false, false⟩

/-- The per-request pipeline, starting after `setupPage` succeeded (the page
handle exists).  Order as in the source: enable blocking, arm interception
and DOM suppression, navigate, neutralize sticky elements, then in
`captureScreenshot`: scroll (only when `options.fullPage` is truthy), take
the screenshot, restore sticky elements, close the page; finally write the
file when `options.outputPath` is truthy. -/
def takeScreenshotModel (o : ScreenshotOptions) (f : PipelineFaults) : PipelineResult :=
  if f.blockingFails then ⟨true, false, false, false⟩
  else if f.interceptSetupFails then ⟨true, false, false, false⟩
  else if f.gotoFails then ⟨true, false, false, false⟩
  else if f.stickyFails then ⟨true, false, false, false⟩
  else if f.scrollFails && o.fullPage.getD false then ⟨true, false, false, false⟩
  else if f.screenshotFails then ⟨true, false, false, false⟩
  else if f.restoreFails then ⟨true, false, false, false⟩
  else if writesFile o then
    if f.writeFails then ⟨true, true, false, false⟩
    else ⟨true, true, true, true⟩
  else ⟨true, true, false, true⟩

/-! ## HTTP surface (`server.ts`) -/

/-- A validated `POST /screenshot` body: the zod schema has no `outputPath`
field at all. -/
structure ScreenshotRequest where
  url : String
  width : Option Nat := none
  height : Option Nat := none
  fullPage : Option Bool := none
  quality : Option Nat := none
  format : Option ImageFormat := none
  waitUntil : Option WaitCondition := none
  timeout : Option Nat := none
deriving DecidableEq, Repr

/-- `{...body, outputPath: undefined}` of the `POST /screenshot` handler. -/
def singleEndpointOptions (r : ScreenshotRequest) : ScreenshotOptions :=
  { url := r.url, width := r.width, height := r.height, fullPage := r.fullPage
  , quality := r.quality, format := r.format, waitUntil := r.waitUntil
  , timeout := r.timeout, outputPath := none }

/-- `{...options, outputPath: undefined}` of the batch handler's map. -/
def batchItemOptions (r : ScreenshotRequest) : ScreenshotOptions :=
  { url := r.url, width := r.width, height := r.height, fullPage := r.fullPage
  , quality := r.quality, format := r.format, waitUntil := r.waitUntil
  , timeout := r.timeout, outputPath := none }

/-- Captured image bytes (a `Buffer`). -/
abbrev ImageBuffer := List Nat

/-- One element of the batch response array. -/
structure BatchEntry where
  url : String
  success : Bool
  data : Option String
  error : Option String
deriving DecidableEq, Repr

/-- The `POST /screenshots/batch` handler: run every capture independently
(`Promise.allSettled` — a rejection of one settles as `rejected` without
affecting the others or the whole batch), then map each settled result in
request order to `{url, success, data | error}`.  `run` is the service call
(`.error m` models a rejection whose reason has message `m`) and `encode` is
`Buffer.prototype.toString("base64")`. -/
def batchHandler (run : ScreenshotOptions → Except String ImageBuffer)
    (encode : ImageBuffer → String) (urls : List ScreenshotRequest) : List BatchEntry :=
  urls.map fun o =>
    match run (batchItemOptions o) with
    | Except.ok buf => ⟨o.url, true, some (encode buf), none⟩
    | Except.error m => ⟨o.url, false, none, some m⟩

/-! ## Concrete instances used by the closed evaluation theorems -/

def crispUrl : String := "https://client.crisp.chat/l.js"

def plainUrl : String := "https://example.com/page"

/-- A page whose samples are constant with no in-flight requests. -/
def constLazyEnv : Nat → LazyLoadMetrics := fun _ => ⟨5, 2, 0⟩

/-- A page that always reports one in-flight request: never stable. -/
def busyLazyEnv : Nat → LazyLoadMetrics := fun _ => ⟨5, 2, 1⟩

/-- A tall page (document height 1000, viewport 100) that never goes quiet. -/
def tallPageEnv : PageEnv := ⟨fun _ => ⟨100, 1000⟩, fun _ => ⟨0, 0, 1⟩⟩

/-- Only `page.goto` fails: a navigation timeout. -/
def gotoFault : PipelineFaults := ⟨false, false, true, false, false, false, false, false⟩

def demoOptions : ScreenshotOptions :=
  { url := "https://example.com", fullPage := some true }

def demoPngOptions : ScreenshotOptions :=
  { url := "https://example.com", format := some ImageFormat.png }

/-- A stand-in CSSOM serialization for
`setProperty("position", "static", "important")`. -/
def mutPDemo : String → String := fun s => s ++ "; position: static !important"

/-- A stand-in CSSOM serialization for the extra header/nav writes. -/
def mutNavDemo : String → String := fun s => s ++ "; top: 0 !important; z-index: auto !important"

def headerElem : Elem := ⟨0, "header", none, "position: fixed; top: 0px", "fixed"⟩

def bodyElem : Elem := ⟨1, "div", none, "color: red", "static"⟩

def demoPage : PageDom := ⟨[headerElem, bodyElem], none⟩

def reqOk : ScreenshotRequest := { url := "https://a.example" }

def reqBad : ScreenshotRequest := { url := "https://unreachable.invalid" }

/-- A service where exactly one of the two demo URLs is reachable. -/
def demoRun : ScreenshotOptions → Except String ImageBuffer := fun o =>
  if o.url = "https://a.example" then Except.ok [137, 80, 78, 71]
  else Except.error "net::ERR_NAME_NOT_RESOLVED at https://unreachable.invalid"

def demoEncode : ImageBuffer → String := fun _ => "iVBORw=="

/-! # Theorems -/

/-! ## C1 — page-handle teardown -/

/-- Claim C1 evaluated on the code at the failing input: when `page.goto`
throws (for example a navigation timeout), the error is surfaced with the
page handle never closed — `page.close()` lives on the success path of
`captureScreenshot` and no `finally` protects it — while the fault-free run
does close the handle.  This contradicts the claimed "the page is still
closed before the error is surfaced to the caller, exactly as on the
success path". -/
theorem c1_page_leak_on_navigation_failure :
    takeScreenshotModel demoOptions gotoFault =
      { pageCreated := true, pageClosed := false, wroteFile := false, ok := false } ∧
    takeScreenshotModel demoOptions noFaults =
      { pageCreated := true, pageClosed := true, wroteFile := false, ok := true } := by
  constructor <;> rfl

/-! ## C2 — request interception -/

/-- Claim C2 (counterexample): for the matching URL `crispUrl`, when the
`request.abort()` call itself throws and the best-effort fallback
`request.continue()` succeeds, the matching request ends up continued
instead of aborted, refuting the claim's unconditional "a matching request
is aborted". -/
theorem c2_matching_request_continued_counterexample :
    matchesBlockPattern crispUrl = true ∧
      interceptHandler crispUrl ⟨false, true, false⟩ =
        { handled := true, decisions := [ReqDecision.continued] } := by
  constructor <;> decide

/-- Claim C2 (amended): for a request not already finalized, when the
primary continue/abort call does not fail, a matching request is aborted and
a non-matching one is continued exactly once; across all fault scenarios the
handler applies at most one decision, so no request is ever both aborted and
continued; and whenever the fallback continue does not itself fail, the
request reaches a decision even if classification or the primary call threw
— though a matching request may then be continued rather than aborted, and
if the fallback also fails the request can be left undecided. -/
theorem c2_interception_decision_amended (url : String) (sc : InterceptScenario)
    (hA : sc.alreadyHandled = false) :
    (sc.primaryFault = false → matchesBlockPattern url = true →
      (interceptHandler url sc).decisions = [ReqDecision.aborted]) ∧
    (sc.primaryFault = false → matchesBlockPattern url = false →
      (interceptHandler url sc).decisions = [ReqDecision.continued]) ∧
    (∀ sc' : InterceptScenario, (interceptHandler url sc').decisions.length ≤ 1) ∧
    (sc.fallbackFault = false → (interceptHandler url sc).decisions ≠ []) := by
  obtain ⟨a, p, fb⟩ := sc
  simp only at hA
  subst hA
  refine ⟨?_, ?_, ?_, ?_⟩
  · intro hp hm
    simp only at hp
    subst hp
    simp [interceptHandler, attemptDecision, hm]
  · intro hp hm
    simp only at hp
    subst hp
    simp [interceptHandler, attemptDecision, hm]
  · intro sc'
    obtain ⟨a', p', fb'⟩ := sc'
    cases a' <;> cases p' <;> cases fb' <;>
      cases hm : matchesBlockPattern url <;>
        simp [interceptHandler, attemptDecision, hm]
  · intro hfb
    simp only at hfb
    subst hfb
    cases p <;> cases hm : matchesBlockPattern url <;>
      simp [interceptHandler, attemptDecision, hm]

/-- Witness for the amended C2: a non-matching request is continued, and a
matching request with a failing abort call still reaches a decision. -/
theorem c2_interception_decision_amended_witness :
    (interceptHandler plainUrl ⟨false, false, false⟩).decisions = [ReqDecision.continued] ∧
    (interceptHandler crispUrl ⟨false, true, false⟩).decisions ≠ [] :=
  ⟨(c2_interception_decision_amended plainUrl ⟨false, false, false⟩ rfl).2.1 rfl (by decide),
   (c2_interception_decision_amended crispUrl ⟨false, true, false⟩ rfl).2.2.2 rfl⟩

/-! ## C6 — png ignores quality -/

/-- Claim C6: when the requested format is the lossless variant (png), the
quality parameter of the `page.screenshot` call is absent, and any two
requests differing only in quality produce identical encoding parameters. -/
theorem c6_png_ignores_quality (o : ScreenshotOptions)
    (h : o.format = some ImageFormat.png) :
    (captureScreenshotParams o).quality = none ∧
    ∀ q1 q2 : Option Nat,
      captureScreenshotParams { o with quality := q1 } =
        captureScreenshotParams { o with quality := q2 } := by
  constructor
  · simp [captureScreenshotParams, h]
  · intro q1 q2
    simp [captureScreenshotParams, h]

/-- Witness for C6 at a concrete png request with quality 10 versus 95. -/
theorem c6_png_ignores_quality_witness :
    (captureScreenshotParams demoPngOptions).quality = none ∧
    captureScreenshotParams { demoPngOptions with quality := some 10 } =
      captureScreenshotParams { demoPngOptions with quality := some 95 } :=
  ⟨(c6_png_ignores_quality demoPngOptions rfl).1,
   (c6_png_ignores_quality demoPngOptions rfl).2 (some 10) (some 95)⟩

/-! ## C7 — batch endpoint shape -/

/-- Claim C7: the batch handler answers every request list with exactly one
entry per URL, in request order, carrying the url, the success flag, the
base64 data on success and the rejection message on failure; the failure of
one capture never changes the shape of the whole response. -/
theorem c7_batch_per_url_results (run : ScreenshotOptions → Except String ImageBuffer)
    (encode : ImageBuffer → String) (urls : List ScreenshotRequest) :
    (batchHandler run encode urls).length = urls.length ∧
    ∀ (i : Nat) (o : ScreenshotRequest), urls[i]? = some o →
      ∃ entry : BatchEntry, (batchHandler run encode urls)[i]? = some entry ∧
        entry.url = o.url ∧
        (∀ buf, run (batchItemOptions o) = Except.ok buf →
          entry = ⟨o.url, true, some (encode buf), none⟩) ∧
        ∀ m, run (batchItemOptions o) = Except.error m →
          entry = ⟨o.url, false, none, some m⟩ := by
  constructor
  · simp [batchHandler]
  · intro i o ho
    refine ⟨match run (batchItemOptions o) with
            | Except.ok buf => ⟨o.url, true, some (encode buf), none⟩
            | Except.error m => ⟨o.url, false, none, some m⟩, ?_, ?_, ?_, ?_⟩
    · simp [batchHandler, List.getElem?_map, ho]
    · cases hr : run (batchItemOptions o) <;> simp [hr]
    · intro buf hb
      simp [hb]
    · intro m hm
      simp [hm]

/-- Witness for C7: a two-element batch where the second URL is unreachable
yields two entries, one successful with data and one failed with the error
message. -/
theorem c7_batch_per_url_results_witness :
    (batchHandler demoRun demoEncode [reqOk, reqBad]).length = 2 ∧
    (batchHandler demoRun demoEncode [reqOk, reqBad])[0]? =
      some ⟨"https://a.example", true, some "iVBORw==", none⟩ ∧
    (batchHandler demoRun demoEncode [reqOk, reqBad])[1]? =
      some ⟨"https://unreachable.invalid", false, none,
        some "net::ERR_NAME_NOT_RESOLVED at https://unreachable.invalid"⟩ := by
  obtain ⟨hlen, hidx⟩ := c7_batch_per_url_results demoRun demoEncode [reqOk, reqBad]
  obtain ⟨e0, he0, _, hok0, _⟩ := hidx 0 reqOk rfl
  obtain ⟨e1, he1, _, _, herr1⟩ := hidx 1 reqBad rfl
  refine ⟨hlen, ?_, ?_⟩
  · rw [he0, hok0 [137, 80, 78, 71] rfl]
    rfl
  · rw [he1, herr1 "net::ERR_NAME_NOT_RESOLVED at https://unreachable.invalid" rfl]
    rfl

/-! ## C10 — HTTP callers cannot reach the filesystem -/

/-- Claim C10: both HTTP handlers force `outputPath` to `undefined` before
handing the options to `takeScreenshot`, and with `outputPath` absent the
pipeline's file-write step can never run, whatever faults occur. -/
theorem c10_http_never_writes_file (r : ScreenshotRequest) (f : PipelineFaults) :
    (singleEndpointOptions r).outputPath = none ∧
    (batchItemOptions r).outputPath = none ∧
    (takeScreenshotModel (singleEndpointOptions r) f).wroteFile = false ∧
    (takeScreenshotModel (batchItemOptions r) f).wroteFile = false := by
  refine ⟨rfl, rfl, ?_, ?_⟩ <;>
  · rw [takeScreenshotModel]
    split_ifs <;> simp_all [writesFile, singleEndpointOptions, batchItemOptions]

/-! ## Stability-monitor lemmas -/

/-- Every return of the polling loop happens within 299 ms of the timeout:
the last iteration can start just under `t` and adds at most the 200 ms
grace delay plus the 100 ms poll interval. -/
theorem waitLoop_elapsed_le (env : Nat → LazyLoadMetrics) (t : Nat) :
    ∀ fuel e i prev, t ≤ e + 100 * fuel → e ≤ t + 299 →
      (waitLoop env t fuel e i prev).elapsed ≤ t + 299 := by
  intro fuel
  induction fuel with
  | zero =>
    intro e i prev _ h2
    simpa [waitLoop] using h2
  | succ fuel ih =>
    intro e i prev h1 h2
    cases prev with
    | none =>
      simp only [waitLoop]
      by_cases he : e < t
      · rw [if_pos he]
        exact ih (e + 100) (i + 1) _ (by omega) (by omega)
      · rw [if_neg he]
        exact h2
    | some p =>
      simp only [waitLoop]
      by_cases he : e < t
      · rw [if_pos he]
        by_cases hs : StablePair p (env i)
        · rw [if_pos hs]
          by_cases hf : StablePair (env i) (env (i + 1))
          · rw [if_pos hf]
            show e + 200 ≤ t + 299
            omega
          · rw [if_neg hf]
            exact ih (e + 300) (i + 2) _ (by omega) (by omega)
        · rw [if_neg hs]
          exact ih (e + 100) (i + 1) _ (by omega) (by omega)
      · rw [if_neg he]
        exact h2

/-- A return through the timeout path (`stable = false`) happens only once
the elapsed time has reached the timeout. -/
theorem waitLoop_timeout_elapsed (env : Nat → LazyLoadMetrics) (t : Nat) :
    ∀ fuel e i prev, t ≤ e + 100 * fuel →
      (waitLoop env t fuel e i prev).stable = false →
      t ≤ (waitLoop env t fuel e i prev).elapsed := by
  intro fuel
  induction fuel with
  | zero =>
    intro e i prev h1 _
    show t ≤ e
    omega
  | succ fuel ih =>
    intro e i prev h1 hst
    cases prev with
    | none =>
      simp only [waitLoop] at hst ⊢
      by_cases he : e < t
      · rw [if_pos he] at hst ⊢
        exact ih (e + 100) (i + 1) _ (by omega) hst
      · rw [if_neg he]
        show t ≤ e
        omega
    | some p =>
      simp only [waitLoop] at hst ⊢
      by_cases he : e < t
      · rw [if_pos he] at hst ⊢
        by_cases hs : StablePair p (env i)
        · rw [if_pos hs] at hst ⊢
          by_cases hf : StablePair (env i) (env (i + 1))
          · rw [if_pos hf] at hst
            simp at hst
          · rw [if_neg hf] at hst ⊢
            exact ih (e + 300) (i + 2) _ (by omega) hst
        · rw [if_neg hs] at hst ⊢
          exact ih (e + 100) (i + 1) _ (by omega) hst
      · rw [if_neg he]
        show t ≤ e
        omega

/-- When no two samples of the stream ever satisfy the stability condition,
the loop can only return through the timeout path. -/
theorem waitLoop_never_stable (env : Nat → LazyLoadMetrics) (t : Nat)
    (hns : ∀ k j : Nat, ¬ StablePair (env k) (env j)) :
    ∀ fuel e i prev, (prev = none ∨ ∃ k, prev = some (env k)) →
      (waitLoop env t fuel e i prev).stable = false := by
  intro fuel
  induction fuel with
  | zero =>
    intro e i prev _
    simp [waitLoop]
  | succ fuel ih =>
    intro e i prev hp
    cases prev with
    | none =>
      simp only [waitLoop]
      by_cases he : e < t
      · rw [if_pos he]
        exact ih (e + 100) (i + 1) _ (Or.inr ⟨i, rfl⟩)
      · rw [if_neg he]
    | some p =>
      have hk : p = env ((hp.resolve_left (by simp)).choose) := by
        have := (hp.resolve_left (by simp)).choose_spec
        exact Option.some.inj this
      simp only [waitLoop]
      by_cases he : e < t
      · rw [if_pos he]
        rw [if_neg (hk ▸ hns _ i)]
        exact ih (e + 100) (i + 1) _ (Or.inr ⟨i, rfl⟩)
      · rw [if_neg he]

/-- `waitForLazyLoad` returns within `timeout + 299` ms. -/
theorem waitForLazyLoadFrom_elapsed_le (env : Nat → LazyLoadMetrics) (t i : Nat) :
    (waitForLazyLoadFrom env t i).elapsed ≤ t + 299 :=
  waitLoop_elapsed_le env t t 0 i none (by omega) (by omega)

/-- Concrete run of the polling loop on a constant, network-quiet stream:
first sample at 0 ms, tentative check at 100 ms, confirmation at 300 ms. -/
theorem waitLoop_const_eval (c : LazyLoadMetrics) (hc : c.pendingNetworkRequests = 0)
    (t i fuel : Nat) (h0 : 0 < t) (h1 : 100 < t) :
    waitLoop (fun _ => c) t (fuel + 2) 0 i none = ⟨300, i + 3, true⟩ := by
  have hs : StablePair c c := ⟨rfl, rfl, hc⟩
  simp only [waitLoop]
  rw [if_pos h0, if_pos h1, if_pos hs, if_pos hs]

/-! ## C5 — quiescence wait -/

/-- Claim C5 (counterexample): with the constant sample stream
`constLazyEnv` and a 200 ms timeout, `waitForLazyLoad` returns through the
stability path only at 300 ms — the initial 100 ms sample delay plus the
200 ms confirmation grace delay exceed the budget — so "returns before its
timeout" fails for a constant sequence as the claim states it. -/
theorem c5_grace_overshoot_counterexample :
    waitForLazyLoadFrom constLazyEnv 200 0 = ⟨300, 3, true⟩ ∧
    ¬ ((waitForLazyLoadFrom constLazyEnv 200 0).elapsed < 200) := by
  constructor <;> decide

/-- Claim C5 (amended): `waitForLazyLoad` never throws and always returns,
within `timeoutMs + 299` ms; for a constant sample sequence with zero
in-flight requests it returns through the stability path at 300 ms, which is
before its timeout provided `timeoutMs > 300`; and for a sequence in which
no two samples ever satisfy the stability condition it returns only once the
timeout has elapsed. -/
theorem c5_quiescence_amended (env : Nat → LazyLoadMetrics) (t i : Nat) :
    (waitForLazyLoadFrom env t i).elapsed ≤ t + 299 ∧
    (∀ c : LazyLoadMetrics, (∀ n, env n = c) → c.pendingNetworkRequests = 0 → 300 < t →
      waitForLazyLoadFrom env t i = ⟨300, i + 3, true⟩ ∧
        (waitForLazyLoadFrom env t i).elapsed < t) ∧
    ((∀ k j : Nat, ¬ StablePair (env k) (env j)) →
      (waitForLazyLoadFrom env t i).stable = false ∧
        t ≤ (waitForLazyLoadFrom env t i).elapsed) := by
  refine ⟨waitForLazyLoadFrom_elapsed_le env t i, ?_, ?_⟩
  · intro c hconst hc ht
    have henv : env = fun _ => c := funext hconst
    subst henv
    obtain ⟨b, rfl⟩ : ∃ b, t = b + 2 := ⟨t - 2, by omega⟩
    have heval := waitLoop_const_eval c hc (b + 2) i b (by omega) (by omega)
    rw [waitForLazyLoadFrom, heval]
    exact ⟨rfl, by simpa using ht⟩
  · intro hns
    have hst := waitLoop_never_stable env t hns t 0 i none (Or.inl rfl)
    exact ⟨hst, waitLoop_timeout_elapsed env t t 0 i none (by omega) hst⟩

/-- Witness for the amended C5: the constant quiet stream with a 5000 ms
budget stabilizes at 300 ms, and the always-busy stream with a 400 ms budget
returns only at the timeout. -/
theorem c5_quiescence_amended_witness :
    (waitForLazyLoadFrom constLazyEnv 5000 0 = ⟨300, 3, true⟩ ∧
      (waitForLazyLoadFrom constLazyEnv 5000 0).elapsed < 5000) ∧
    ((waitForLazyLoadFrom busyLazyEnv 400 0).stable = false ∧
      400 ≤ (waitForLazyLoadFrom busyLazyEnv 400 0).elapsed) :=
  ⟨(c5_quiescence_amended constLazyEnv 5000 0).2.1 ⟨5, 2, 0⟩ (fun _ => rfl) rfl (by omega),
   (c5_quiescence_amended busyLazyEnv 400 0).2.2
     (fun k j h => by simp [busyLazyEnv, StablePair] at h)⟩

/-! ## Scroller lemmas -/

/-- Every exit of the scroll loop happens within `stabT + 398` ms of
`maxT`: the last iteration can start just under `maxT` and adds one
stability wait (at most `stabT + 299` ms) plus the fixed 100 ms pause. -/
theorem scrollLoop_elapsed_le (env : PageEnv) (maxT step stabT : Nat) :
    ∀ fuel e si li pos lastH ctr, maxT ≤ e + 100 * fuel → e ≤ maxT + stabT + 398 →
      (scrollLoop env maxT step stabT fuel e si li pos lastH ctr).elapsed ≤
        maxT + stabT + 398 := by
  intro fuel
  induction fuel with
  | zero =>
    intro e si li pos lastH ctr _ h2
    simpa [scrollLoop] using h2
  | succ fuel ih =>
    intro e si li pos lastH ctr h1 h2
    have hw := waitForLazyLoadFrom_elapsed_le env.lRead stabT li
    simp only [scrollLoop]
    by_cases he : e < maxT
    · rw [if_pos he]
      by_cases hb : (env.sRead si).documentHeight ≤ pos + (env.sRead si).viewportHeight
      · rw [if_pos hb]
        show e ≤ maxT + stabT + 398
        omega
      · rw [if_neg hb]
        by_cases hh : (env.sRead si).documentHeight = lastH
        · rw [if_pos hh]
          by_cases hctr : 3 ≤ ctr + 1
          · rw [if_pos hctr]
            show e ≤ maxT + stabT + 398
            omega
          · rw [if_neg hctr]
            exact ih _ _ _ _ _ _ (by omega) (by omega)
        · rw [if_neg hh]
          exact ih _ _ _ _ _ _ (by omega) (by omega)
    · rw [if_neg he]
      exact h2

/-! ## C3 — scroller termination and time bound -/

/-- Claim C3 (counterexample): with `maxTimeoutMs = 1` and a zero stability
budget on a page that never reaches the bottom, the scroller still spends
600 ms — the fixed 100 ms per-iteration pause plus the fixed 500 ms settle
delay — exceeding the claimed bound of `maxTimeoutMs` plus one
stability-wait budget. -/
theorem c3_fixed_delays_counterexample :
    intelligentScroll tallPageEnv 1 10 0 0 =
      { finalPos := 0, elapsed := 600, exitReason := ScrollExit.timedOut } ∧
    ¬ ((intelligentScroll tallPageEnv 1 10 0 0).elapsed ≤ 1 + 0) := by
  constructor <;> decide

/-- Claim C3 (amended): for every page-metrics trace — including one whose
document height grows without bound — the scroller's loop terminates through
the bottom condition, the document-height stability cutoff, or the
elapsed-time guard, and its total running time is bounded by `maxTimeoutMs`
plus one stability-wait budget plus the fixed delays of the source: the
stability wait may overshoot its own budget by up to 299 ms, each iteration
adds a 100 ms pause, and the final scroll-back adds a 500 ms settle delay —
altogether at most `maxTimeoutMs + stabilityTimeoutMs + 900` ms. -/
theorem c3_scroller_time_bound_amended (env : PageEnv) (maxT step stabT pos0 : Nat) :
    (intelligentScroll env maxT step stabT pos0).elapsed ≤ maxT + stabT + 900 ∧
    ((intelligentScroll env maxT step stabT pos0).exitReason = ScrollExit.bottom ∨
     (intelligentScroll env maxT step stabT pos0).exitReason = ScrollExit.heightStable ∨
     (intelligentScroll env maxT step stabT pos0).exitReason = ScrollExit.timedOut) := by
  constructor
  · have h := scrollLoop_elapsed_le env maxT step stabT maxT 0 0 0 pos0 0 0
      (by omega) (by omega)
    simp only [intelligentScroll]
    omega
  · cases h : (intelligentScroll env maxT step stabT pos0).exitReason
    · exact Or.inl rfl
    · exact Or.inr (Or.inl rfl)
    · exact Or.inr (Or.inr rfl)

/-! ## C9 — scroll offset after completion -/

/-- Claim C9: whatever the environment, the parameters and the exit reason
of the loop, `intelligentScroll` finishes with the scroll offset exactly 0
(the unconditional `window.scrollTo(0, 0)`) and with the fixed 500 ms settle
delay elapsed after the scroll-to-top, before control returns. -/
theorem c9_scroller_returns_to_top (env : PageEnv) (maxT step stabT pos0 : Nat) :
    (intelligentScroll env maxT step stabT pos0).finalPos = 0 ∧
    ∃ eLoop, intelligentScroll env maxT step stabT pos0 =
      { finalPos := 0, elapsed := eLoop + 500,
        exitReason := (scrollLoop env maxT step stabT maxT 0 0 0 pos0 0 0).exitReason } :=
  ⟨rfl, ⟨(scrollLoop env maxT step stabT maxT 0 0 0 pos0 0 0).elapsed, rfl⟩⟩

/-! ## Sticky-restoration lemmas -/

/-- Records naming other elements leave an element untouched. -/
theorem applyRecs_of_not_mem (e : Elem) :
    ∀ recs : List (Nat × String), (∀ r ∈ recs, r.1 ≠ e.id) → applyRecs recs e = e := by
  intro recs
  induction recs with
  | nil => intro _; rfl
  | cons r rest ih =>
    intro hnone
    have hr : r.1 ≠ e.id := hnone r (List.mem_cons_self r rest)
    show applyRecs rest (if e.id = r.1 then { e with inlineStyle := r.2 } else e) = e
    rw [if_neg fun hh => hr hh.symm]
    exact ih fun r' hr' => hnone r' (List.mem_cons_of_mem r hr')

/-- When the record identities are distinct, the one record naming an
element overwrites its inline style with the recorded string. -/
theorem applyRecs_of_mem (s : String) :
    ∀ (recs : List (Nat × String)) (a : Elem), (recs.map Prod.fst).Nodup →
      (a.id, s) ∈ recs → applyRecs recs a = { a with inlineStyle := s } := by
  intro recs
  induction recs with
  | nil => intro a _ hm; cases hm
  | cons r rest ih =>
    intro a hn hm
    have hr1 : r.1 ∉ rest.map Prod.fst := (List.nodup_cons.mp hn).1
    have hn' : (rest.map Prod.fst).Nodup := (List.nodup_cons.mp hn).2
    show applyRecs rest (if a.id = r.1 then { a with inlineStyle := r.2 } else a) =
      { a with inlineStyle := s }
    by_cases hid : a.id = r.1
    · rw [if_pos hid]
      rcases List.mem_cons.mp hm with heq | hmem
      · have h2 : r.2 = s := by rw [← heq]
        rw [h2]
        apply applyRecs_of_not_mem
        intro r' hr' hcontr
        apply hr1
        have : a.id ∈ rest.map Prod.fst := List.mem_map.mpr ⟨r', hr', hcontr⟩
        rwa [hid] at this
      · exfalso
        apply hr1
        have : a.id ∈ rest.map Prod.fst := List.mem_map.mpr ⟨(a.id, s), hmem, rfl⟩
        rwa [hid] at this
    · rw [if_neg hid]
      rcases List.mem_cons.mp hm with heq | hmem
      · exact absurd (by rw [← heq] : r.1 = a.id) fun hh => hid hh.symm
      · exact ih a hn' hmem

/-- The record identities inherit distinctness from the page. -/
theorem stickyRecs_nodup (d : PageDom) (h : (d.elems.map Elem.id).Nodup) :
    ((stickyRecs d).map Prod.fst).Nodup := by
  have h1 : (stickyRecs d).map Prod.fst = (d.elems.filter stickyQualifies).map Elem.id := by
    unfold stickyRecs
    rw [List.map_map]
    rfl
  rw [h1]
  exact h.sublist ((List.filter_sublist d.elems).map Elem.id)

/-- Every qualifying element is recorded with its original style. -/
theorem mem_stickyRecs (d : PageDom) (e : Elem) (he : e ∈ d.elems)
    (hq : stickyQualifies e = true) : (e.id, e.inlineStyle) ∈ stickyRecs d :=
  List.mem_map.mpr ⟨e, List.mem_filter.mpr ⟨he, hq⟩, rfl⟩

/-- No record names a non-qualifying element. -/
theorem not_mem_stickyRecs (d : PageDom) (h : (d.elems.map Elem.id).Nodup)
    (e : Elem) (he : e ∈ d.elems) (hq : stickyQualifies e = false) :
    ∀ r ∈ stickyRecs d, r.1 ≠ e.id := by
  intro r hr
  obtain ⟨e', he', rfl⟩ := List.mem_map.mp hr
  intro hid
  have he'mem : e' ∈ d.elems := (List.mem_filter.mp he').1
  have hq' : stickyQualifies e' = true := (List.mem_filter.mp he').2
  have heq : e' = e := List.inj_on_of_nodup_map h he'mem he hid
  rw [heq, hq] at hq'
  cases hq'

/-- Writing the recorded original styles back into the untouched page
changes nothing: qualifying elements get their own style rewritten, and the
other elements are named by no record. -/
theorem restore_fixed (d : PageDom) (h : (d.elems.map Elem.id).Nodup) :
    d.elems.map (applyRecs (stickyRecs d)) = d.elems := by
  have hpt : ∀ e ∈ d.elems, applyRecs (stickyRecs d) e = id e := by
    intro e he
    simp only [id]
    by_cases hq : stickyQualifies e = true
    · rw [applyRecs_of_mem e.inlineStyle (stickyRecs d) e (stickyRecs_nodup d h)
        (mem_stickyRecs d e he hq)]
    · have hq' : stickyQualifies e = false := by simpa using hq
      exact applyRecs_of_not_mem e (stickyRecs d) (not_mem_stickyRecs d h e he hq')
  rw [List.map_congr_left hpt, List.map_id]

/-- Neutralize-then-restore puts every element back to its original state
and leaves the record slot holding the records: the central structural fact
behind the round-trip and not-cleared properties. -/
theorem restore_handleSticky_eq (mutP mutNav : String → String) (d : PageDom)
    (h : (d.elems.map Elem.id).Nodup) :
    restoreStickyElements (handleStickyElements mutP mutNav d) =
      ⟨d.elems, some (stickyRecs d)⟩ := by
  show PageDom.mk ((d.elems.map fun e =>
      if stickyQualifies e then modifyStickyOne mutP mutNav e else e).map
        (applyRecs (stickyRecs d))) (some (stickyRecs d)) = ⟨d.elems, some (stickyRecs d)⟩
  have hElems : (d.elems.map fun e =>
      if stickyQualifies e then modifyStickyOne mutP mutNav e else e).map
        (applyRecs (stickyRecs d)) = d.elems := by
    rw [List.map_map]
    have hpt : ∀ e ∈ d.elems, (applyRecs (stickyRecs d) ∘ fun e =>
        if stickyQualifies e then modifyStickyOne mutP mutNav e else e) e = id e := by
      intro e he
      simp only [Function.comp, id]
      by_cases hq : stickyQualifies e = true
      · rw [if_pos hq]
        have hmem : ((modifyStickyOne mutP mutNav e).id, e.inlineStyle) ∈ stickyRecs d :=
          mem_stickyRecs d e he hq
        rw [applyRecs_of_mem e.inlineStyle (stickyRecs d) (modifyStickyOne mutP mutNav e)
          (stickyRecs_nodup d h) hmem]
        cases e
        rfl
      · have hq' : stickyQualifies e = false := by simpa using hq
        rw [if_neg hq]
        exact applyRecs_of_not_mem e (stickyRecs d) (not_mem_stickyRecs d h e he hq')
    rw [List.map_congr_left hpt, List.map_id]
  rw [hElems]

/-! ## C4 — neutralize/restore round trip -/

/-- Claim C4: neutralize-then-restore returns every recorded element — and
with it the whole element list — to its exact original inline style, for any
CSSOM serialization of the neutralizing writes; and restore is a safe no-op
both when neutralize was never called (slot absent) and when it recorded no
elements (slot holds the empty list). -/
theorem c4_sticky_roundtrip (mutP mutNav : String → String) (d : PageDom)
    (h : (d.elems.map Elem.id).Nodup) :
    (restoreStickyElements (handleStickyElements mutP mutNav d)).elems = d.elems ∧
    (d.slot = none → restoreStickyElements d = d) ∧
    (d.slot = some [] → restoreStickyElements d = d) := by
  refine ⟨?_, ?_, ?_⟩
  · rw [restore_handleSticky_eq mutP mutNav d h]
  · intro hs
    obtain ⟨es, sl⟩ := d
    simp only at hs
    subst hs
    rfl
  · intro hs
    obtain ⟨es, sl⟩ := d
    simp only at hs
    subst hs
    show PageDom.mk (es.map (applyRecs [])) (some []) = ⟨es, some []⟩
    have hid : ∀ e ∈ es, applyRecs [] e = id e := fun e _ => rfl
    rw [List.map_congr_left hid, List.map_id]

/-- Witness for C4 at the two-element demo page. -/
theorem c4_sticky_roundtrip_witness :
    (restoreStickyElements (handleStickyElements mutPDemo mutNavDemo demoPage)).elems =
      demoPage.elems ∧
    restoreStickyElements demoPage = demoPage :=
  ⟨(c4_sticky_roundtrip mutPDemo mutNavDemo demoPage (by decide)).1,
   (c4_sticky_roundtrip mutPDemo mutNavDemo demoPage (by decide)).2.1 rfl⟩

/-! ## C8 — restore writes back but does not clear -/

/-- Claim C8 (counterexample): after neutralize-then-restore on the demo
page the `__originalStickyStyles` slot still holds the header's record:
`restoreStickyElements` never clears the slot, so the record set is neither
empty nor absent after restore. -/
theorem c8_slot_not_cleared_counterexample :
    (restoreStickyElements (handleStickyElements mutPDemo mutNavDemo demoPage)).slot =
      some [(0, "position: fixed; top: 0px")] ∧
    ¬ ((restoreStickyElements (handleStickyElements mutPDemo mutNavDemo demoPage)).slot = none ∨
      (restoreStickyElements (handleStickyElements mutPDemo mutNavDemo demoPage)).slot =
        some []) := by
  constructor <;> decide

/-- Claim C8 (amended): restore writes every recorded element's original
style string back verbatim, but leaves the record slot exactly as
neutralize filled it instead of clearing it; a second restore immediately
afterwards is still a no-op on the page, because it rewrites the same
original styles. -/
theorem c8_restore_amended (mutP mutNav : String → String) (d : PageDom)
    (h : (d.elems.map Elem.id).Nodup) :
    (restoreStickyElements (handleStickyElements mutP mutNav d)).elems = d.elems ∧
    (restoreStickyElements (handleStickyElements mutP mutNav d)).slot =
      (handleStickyElements mutP mutNav d).slot ∧
    restoreStickyElements (restoreStickyElements (handleStickyElements mutP mutNav d)) =
      restoreStickyElements (handleStickyElements mutP mutNav d) := by
  have hkey := restore_handleSticky_eq mutP mutNav d h
  refine ⟨by rw [hkey], by rw [hkey]; rfl, ?_⟩
  rw [hkey]
  show PageDom.mk (d.elems.map (applyRecs (stickyRecs d))) (some (stickyRecs d)) =
    ⟨d.elems, some (stickyRecs d)⟩
  rw [restore_fixed d h]

/-- Witness for the amended C8 at the demo page. -/
theorem c8_restore_amended_witness :
    (restoreStickyElements (handleStickyElements mutPDemo mutNavDemo demoPage)).slot =
      (handleStickyElements mutPDemo mutNavDemo demoPage).slot ∧
    restoreStickyElements (restoreStickyElements
        (handleStickyElements mutPDemo mutNavDemo demoPage)) =
      restoreStickyElements (handleStickyElements mutPDemo mutNavDemo demoPage) :=
  ⟨(c8_restore_amended mutPDemo mutNavDemo demoPage (by decide)).2.1,
   (c8_restore_amended mutPDemo mutNavDemo demoPage (by decide)).2.2⟩
